import Mathlib

/-!
# Verification of the dataviz aggregation pipeline

Shallow embedding of `src/streamlit_app.py`: the dataset loader
(lines 12-41) and the seven aggregation steps of the "Explore Data"
page.  A table is a `List` of rows; pandas missing values (`NaN`)
arising in categorical or mapped string columns are modelled as
`Option String`, and missing aggregation results as `Option ℚ`.

The repository pins no pandas version, but the code is written against
the pandas 2.x defaults: line 154 passes `observed=True` explicitly
(the other `groupby` calls use the default `observed=False`, which
materialises unobserved categories of a categorical grouping key), and
lines 92 and 184 filter out the zero counts that this default
materialises.  The embedding therefore models `groupby` over the
categorical `activity_type` with `observed=False` semantics wherever
the source does not override it.
-/

/-- One row of the raw CSV, before any normalization (all text columns
as plain strings, numeric columns as rationals). -/
structure RawRow where
  activity_type : String
  gender : String
  intensity : String
  age_category : String
  duration_minutes : ℚ
  calories_burned : ℚ
deriving DecidableEq, Repr

/-- One row of the loaded base table.  `activity_type` is the ordered
categorical of lines 39-41 (`none` = NaN for values outside the fixed
list); `gender` is the result of the `Series.map` on line 19 (`none` =
NaN for unmapped values). -/
structure Row where
  activity_type : Option String
  gender : Option String
  intensity : String
  age_category : String
  duration_minutes : ℚ
  calories_burned : ℚ
deriving DecidableEq, Repr

/-- The fixed categorical order for `activity_type` (lines 27-38). -/
def activity_order : List String :=
  ["Running", "Cycling", "Swimming", "Yoga", "Walking",
   "HIIT", "Dancing", "Weight Training", "Tennis", "Basketball"]

/-- `Series.map({"F": "Female", "M": "Male"})` (line 19): a pandas
dict-`map` sends every key outside the dict to NaN (`none`). -/
def genderMap (g : String) : Option String :=
  if g = "F" then some "Female"
  else if g = "M" then some "Male"
  else none

/-- `pd.Categorical(_, categories=activity_order)` (lines 39-41):
values outside the category list become NaN (`none`). -/
def catActivity (a : String) : Option String :=
  if a ∈ activity_order then some a else none

/-- `load_data` (lines 12-21) followed by the categorical conversion of
lines 39-41: the base table handed to every aggregation step. -/
def load_data (raw : List RawRow) : List Row :=
  raw.map (fun r =>
    { activity_type := catActivity r.activity_type
      gender := genderMap r.gender
      intensity := r.intensity
      age_category := r.age_category
      duration_minutes := r.duration_minutes
      calories_burned := r.calories_burned })

example : genderMap "F" = some "Female" := rfl
example : genderMap "Male" = none := rfl
example : catActivity "Yoga" = some "Yoga" := rfl
example : catActivity "Boxing" = none := rfl

/-! ## Generic list machinery

Stable insertion sort (modelling `sort_values` / the sort performed by
`value_counts` and `groupby(sort=True)`), first-occurrence
deduplication (modelling `Series.unique`), and last-occurrence lookup
(modelling a Python dict comprehension, where a duplicated key keeps
the value written last). -/

/-- Insert `x` into `l` before the first element `y` with `le x y`. -/
def insertBy (le : α → α → Bool) (x : α) : List α → List α
  | [] => [x]
  | y :: ys => if le x y then x :: y :: ys else y :: insertBy le x ys

/-- Stable insertion sort by the boolean relation `le`. -/
def sortBy (le : α → α → Bool) : List α → List α
  | [] => []
  | x :: xs => insertBy le x (sortBy le xs)

theorem insertBy_perm (le : α → α → Bool) (x : α) (l : List α) :
    (insertBy le x l).Perm (x :: l) := by
  induction l with
  | nil => exact List.Perm.refl _
  | cons y ys ih =>
    by_cases h : le x y = true
    · rw [insertBy, if_pos h]
    · rw [insertBy, if_neg h]
      exact (List.Perm.cons y ih).trans (List.Perm.swap x y ys)

theorem sortBy_perm (le : α → α → Bool) (l : List α) :
    (sortBy le l).Perm l := by
  induction l with
  | nil => exact List.Perm.refl _
  | cons x xs ih => exact (insertBy_perm le x (sortBy le xs)).trans (ih.cons x)

theorem mem_sortBy (le : α → α → Bool) (l : List α) (a : α) :
    a ∈ sortBy le l ↔ a ∈ l :=
  (sortBy_perm le l).mem_iff

theorem pairwise_insertBy (le : α → α → Bool)
    (tot : ∀ a b, le a b = true ∨ le b a = true)
    (tr : ∀ a b c, le a b = true → le b c = true → le a c = true)
    (x : α) (l : List α) (hl : l.Pairwise (fun a b => le a b = true)) :
    (insertBy le x l).Pairwise (fun a b => le a b = true) := by
  induction l with
  | nil => simp [insertBy]
  | cons y ys ih =>
    rcases List.pairwise_cons.mp hl with ⟨hy, hys⟩
    by_cases h : le x y = true
    · rw [insertBy, if_pos h]
      refine List.pairwise_cons.mpr ⟨?_, hl⟩
      intro b hb
      rcases List.mem_cons.mp hb with hby | hb
      · subst hby; exact h
      · exact tr x y b h (hy _ hb)
    · rw [insertBy, if_neg h]
      refine List.pairwise_cons.mpr ⟨?_, ih hys⟩
      intro b hb
      rcases List.mem_cons.mp ((insertBy_perm le x ys).mem_iff.mp hb) with
        hbx | hbys
      · rw [hbx]
        rcases tot x y with hxy | hyx
        · exact absurd hxy h
        · exact hyx
      · exact hy _ hbys

theorem pairwise_sortBy (le : α → α → Bool)
    (tot : ∀ a b, le a b = true ∨ le b a = true)
    (tr : ∀ a b c, le a b = true → le b c = true → le a c = true)
    (l : List α) :
    (sortBy le l).Pairwise (fun a b => le a b = true) := by
  induction l with
  | nil => simp [sortBy]
  | cons x xs ih => exact pairwise_insertBy le tot tr x _ ih

/-- Helper for `uniqueFirst`: keep each element not yet seen, in
order, threading the set of already-seen elements. -/
def uniqueFirstAux (seen : List String) : List String → List String
  | [] => []
  | x :: xs =>
    if x ∈ seen then uniqueFirstAux seen xs
    else x :: uniqueFirstAux (x :: seen) xs

/-- First-occurrence deduplication: the order of `Series.unique`. -/
def uniqueFirst (l : List String) : List String := uniqueFirstAux [] l

theorem mem_uniqueFirstAux (l seen : List String) (a : String) :
    a ∈ uniqueFirstAux seen l ↔ a ∈ l ∧ a ∉ seen := by
  induction l generalizing seen with
  | nil => simp [uniqueFirstAux]
  | cons x xs ih =>
    rw [uniqueFirstAux]
    by_cases hx : x ∈ seen
    · rw [if_pos hx, ih]
      constructor
      · rintro ⟨h1, h2⟩
        exact ⟨List.mem_cons_of_mem _ h1, h2⟩
      · rintro ⟨h1, h2⟩
        refine ⟨?_, h2⟩
        rcases List.mem_cons.mp h1 with rfl | h1
        · exact absurd hx h2
        · exact h1
    · rw [if_neg hx]
      constructor
      · intro h
        rcases List.mem_cons.mp h with rfl | h
        · exact ⟨List.mem_cons_self _ _, hx⟩
        · rcases (ih _).mp h with ⟨h1, h2⟩
          refine ⟨List.mem_cons_of_mem _ h1, fun hs => h2 ?_⟩
          exact List.mem_cons_of_mem _ hs
      · rintro ⟨h1, h2⟩
        rcases List.mem_cons.mp h1 with rfl | h1
        · exact List.mem_cons_self _ _
        · by_cases hax : a = x
          · subst hax; exact List.mem_cons_self _ _
          · refine List.mem_cons_of_mem _ ((ih _).mpr ⟨h1, ?_⟩)
            intro hs
            rcases List.mem_cons.mp hs with h | h
            · exact hax h
            · exact h2 h

theorem mem_uniqueFirst (l : List String) (a : String) :
    a ∈ uniqueFirst l ↔ a ∈ l := by
  rw [uniqueFirst, mem_uniqueFirstAux]
  simp

theorem nodup_uniqueFirstAux (l : List String) :
    ∀ seen, (uniqueFirstAux seen l).Nodup := by
  induction l with
  | nil => intro seen; simp [uniqueFirstAux]
  | cons x xs ih =>
    intro seen
    rw [uniqueFirstAux]
    by_cases hx : x ∈ seen
    · rw [if_pos hx]; exact ih seen
    · rw [if_neg hx]
      refine List.nodup_cons.mpr ⟨?_, ih _⟩
      intro hmem
      have := ((mem_uniqueFirstAux _ _ _).mp hmem).2
      exact this (List.mem_cons_self _ _)

theorem nodup_uniqueFirst (l : List String) : (uniqueFirst l).Nodup :=
  nodup_uniqueFirstAux l []

/-- Index assigned to `x` by the dict comprehension
`{label: i for i, label in enumerate(ls)}`: the index of the LAST
occurrence of `x` in `ls` (a later duplicate key overwrites an earlier
one), `none` when `x` does not occur. -/
def lastIdx (x : String) : List String → Option ℕ
  | [] => none
  | y :: ys =>
    match lastIdx x ys with
    | some j => some (j + 1)
    | none => if y = x then some 0 else none

theorem lastIdx_eq_none (x : String) (l : List String) (h : x ∉ l) :
    lastIdx x l = none := by
  induction l with
  | nil => rfl
  | cons y ys ih =>
    have h1 : y ≠ x := fun hyx => h (by rw [hyx]; exact List.mem_cons_self _ _)
    have h2 : x ∉ ys := fun hm => h (List.mem_cons_of_mem _ hm)
    simp [lastIdx, ih h2, h1]

theorem lastIdx_mem (x : String) (l : List String) (h : x ∈ l) :
    ∃ i, lastIdx x l = some i ∧ i < l.length := by
  induction l with
  | nil => cases h
  | cons y ys ih =>
    by_cases hm : x ∈ ys
    · rcases ih hm with ⟨i, hi, hlt⟩
      exact ⟨i + 1, by rw [lastIdx, hi], Nat.succ_lt_succ hlt⟩
    · have hyx : y = x := by
        rcases List.mem_cons.mp h with h | h
        · exact h.symm
        · exact absurd h hm
      refine ⟨0, ?_, Nat.succ_pos _⟩
      rw [lastIdx, lastIdx_eq_none x ys hm]
      simp [hyx]

theorem lastIdx_append_left (x : String) (A G : List String) (h : x ∉ G) :
    lastIdx x (A ++ G) = lastIdx x A := by
  induction A with
  | nil => simp [lastIdx_eq_none x G h, lastIdx]
  | cons a as ih => rw [List.cons_append, lastIdx, ih, lastIdx]

theorem lastIdx_append_right (x : String) (A G : List String) (j : ℕ)
    (h : lastIdx x G = some j) :
    lastIdx x (A ++ G) = some (A.length + j) := by
  induction A with
  | nil => simpa using h
  | cons a as ih =>
    rw [List.cons_append, lastIdx, ih]
    simp only [List.length_cons]
    rw [Nat.succ_add]

theorem lastIdx_get_of_nodup (l : List String) (hl : l.Nodup)
    (i : ℕ) (hi : i < l.length) :
    lastIdx (l.get ⟨i, hi⟩) l = some i := by
  induction l generalizing i with
  | nil => cases hi
  | cons y ys ih =>
    rcases List.nodup_cons.mp hl with ⟨hy, hys⟩
    cases i with
    | zero =>
      simp only [List.get]
      rw [lastIdx, lastIdx_eq_none y ys hy]
      simp
    | succ n =>
      have hn : n < ys.length := Nat.lt_of_succ_lt_succ hi
      have := ih hys n hn
      simp only [List.get] at this ⊢
      rw [lastIdx, this]

/-! ## The aggregation pipeline -/

/-- Comparator for descending sort by a natural-number count. -/
def countDescLe (p q : String × ℕ) : Bool := decide (q.2 ≤ p.2)

/-- Ascending lexicographic comparator on strings (the sort applied by
`groupby(sort=True)` to a plain string key). -/
def strLe (a b : String) : Bool := decide (a ≤ b)

/-- Number of base-table rows with the given (non-NaN) activity type. -/
def countActivity (t : List Row) (a : String) : ℕ :=
  (t.filter (fun r => r.activity_type == some a)).length

/-- `df["activity_type"].value_counts()` (line 88): one count per
category of the categorical column (NaN excluded, zero counts for
unobserved categories included), sorted descending by count. -/
def value_counts (t : List Row) : List (String × ℕ) :=
  sortBy countDescLe (activity_order.map (fun a => (a, countActivity t a)))

/-- Step 1, `activity_frequency` (lines 88-92): the value counts with
the zero-frequency rows filtered out (line 92). -/
def activity_frequency (t : List Row) : List (String × ℕ) :=
  (value_counts t).filter (fun p => decide (0 < p.2))

/-- The distinct non-NaN gender values of a table, in the sorted order
`groupby(sort=True)` gives to a plain string key level. -/
def observedGenders (t : List Row) : List String :=
  sortBy strLe (uniqueFirst (t.filterMap Row.gender))

/-- Number of rows matching both a (non-NaN) activity type and a
(non-NaN) gender. -/
def countActGen (t : List Row) (a g : String) : ℕ :=
  (t.filter (fun r =>
    r.activity_type == some a && r.gender == some g)).length

/-- Step 2, the gender frequency table (lines 119-121):
`df.groupby(["activity_type", "gender"]).size()`.  With the pandas 2.x
default `observed=False`, the categorical level contributes all 10
categories, the plain string level its observed values; rows with a
NaN key are dropped; group keys are sorted. -/
def freq_by_gender (t : List Row) : List (String × String × ℕ) :=
  activity_order.flatMap (fun a =>
    (observedGenders t).map (fun g => (a, g, countActGen t a g)))

/-- Mean of a list of rationals: `none` models the NaN that pandas
produces for a no-sample mean. -/
def rmean (l : List ℚ) : Option ℚ :=
  if l.length = 0 then none else some (l.sum / l.length)

/-- The rows of one activity group. -/
def groupRows (t : List Row) (a : String) : List Row :=
  t.filter (fun r => r.activity_type == some a)

/-- `activity_stats` (lines 153-160): group by `activity_type` with
`observed=True` (explicit in the source), so only categories with at
least one row appear, in category order; per group the means of
`calories_burned` and `duration_minutes`. -/
def activity_stats (t : List Row) : List (String × Option ℚ × Option ℚ) :=
  (activity_order.filter (fun a => !(groupRows t a).isEmpty)).map
    (fun a =>
      (a, rmean ((groupRows t a).map Row.calories_burned),
       rmean ((groupRows t a).map Row.duration_minutes)))

/-- Comparator for the descending sort on `avg_calories_burned`
(line 162); `sort_values` places NaN last (`na_position="last"`). -/
def calDescLe (p q : String × Option ℚ × Option ℚ) : Bool :=
  match p.2.1, q.2.1 with
  | some a, some b => decide (b ≤ a)
  | some _, none => true
  | none, some _ => false
  | none, none => true

/-- Step 3, `top_activities` (lines 162-164): sort descending by mean
calories, then `.dropna()` removes any row with a NaN mean. -/
def top_activities (t : List Row) : List (String × ℚ × ℚ) :=
  (sortBy calDescLe (activity_stats t)).filterMap (fun x =>
    match x with
    | (a, some c, some d) => some (a, c, d)
    | _ => none)

/-- The distinct intensity values of a table, sorted (`groupby` key
level for the plain string `intensity` column). -/
def observedIntensities (t : List Row) : List String :=
  sortBy strLe (uniqueFirst (t.map Row.intensity))

/-- Number of rows matching an activity type and an intensity. -/
def countActInt (t : List Row) (a i : String) : ℕ :=
  (t.filter (fun r =>
    r.activity_type == some a && r.intensity == i)).length

/-- Step 4, `activity_summary` (lines 181-185):
`groupby(["activity_type", "intensity"]).size()` (default
`observed=False`, so all 10 categories appear per observed intensity)
followed by the `count > 0` filter of line 184. -/
def activity_summary (t : List Row) : List (String × String × ℕ) :=
  (activity_order.flatMap (fun a =>
    (observedIntensities t).map (fun i => (a, i, countActInt t a i)))).filter
    (fun p => decide (0 < p.2.2))

/-- Sort key of the categorical `activity_type` column: the category
code, with NaN last. -/
def actKey : Option String → ℕ
  | some a => activity_order.indexOf a
  | none => activity_order.length

/-- Comparator for `sort_values(by="activity_type")` (line 231). -/
def actLe (r s : Row) : Bool :=
  decide (actKey r.activity_type ≤ actKey s.activity_type)

/-- The rows selected by the gender radio filter, sorted by activity
type (line 231). -/
def scatterRows (t : List Row) (g : String) : List Row :=
  sortBy actLe (t.filter (fun r => r.gender == some g))

/-- Step 5, the scatter view (lines 230-249): `none` models the
`filtered_df.empty` branch (line 248, the advisory instead of a
chart); otherwise the sorted filtered rows are charted. -/
def scatterView (t : List Row) (g : String) : Option (List Row) :=
  if (scatterRows t g).isEmpty then none else some (scatterRows t g)

/-- `filtered_sankey_data` (line 258): the rows with the selected
intensity. -/
def filteredSankey (t : List Row) (lvl : String) : List Row :=
  t.filter (fun r => r.intensity == lvl)

/-- Step 6, `sankey_data` (lines 260-264):
`groupby(["activity_type", "gender"]).agg(mean calories)` over the
intensity-filtered rows, default `observed=False`: all 10 categories
crossed with the observed genders, sorted by (category order, gender);
a group with no rows gets a NaN mean (`none`). -/
def sankey_data (t : List Row) (lvl : String) :
    List (String × String × Option ℚ) :=
  activity_order.flatMap (fun a =>
    (observedGenders (filteredSankey t lvl)).map (fun g =>
      (a, g,
       rmean (((filteredSankey t lvl).filter (fun r =>
         r.activity_type == some a && r.gender == some g)).map
         Row.calories_burned))))

/-- `activity_labels` (line 265): first-occurrence distinct values of
the summary's activity column. -/
def activity_labels (t : List Row) (lvl : String) : List String :=
  uniqueFirst ((sankey_data t lvl).map (fun r => r.1))

/-- `gender_labels` (line 266). -/
def gender_labels (t : List Row) (lvl : String) : List String :=
  uniqueFirst ((sankey_data t lvl).map (fun r => r.2.1))

/-- `all_labels` (line 267). -/
def all_labels (t : List Row) (lvl : String) : List String :=
  activity_labels t lvl ++ gender_labels t lvl

/-- `label_indices[x]` (line 268): a Python dict comprehension keeps
the value written last for a duplicated key, so the lookup returns the
index of the last occurrence. -/
def label_indices (t : List Row) (lvl : String) (x : String) : Option ℕ :=
  lastIdx x (all_labels t lvl)

/-- `source_index` of a summary row (line 269). -/
def source_index (t : List Row) (lvl : String)
    (r : String × String × Option ℚ) : Option ℕ :=
  label_indices t lvl r.1

/-- `target_index` of a summary row (line 270). -/
def target_index (t : List Row) (lvl : String)
    (r : String × String × Option ℚ) : Option ℕ :=
  label_indices t lvl r.2.1

/-- The distinct age-category values of a table, sorted. -/
def observedAges (t : List Row) : List String :=
  sortBy strLe (uniqueFirst (t.map Row.age_category))

/-- Step 7, `age_activity_stats` (lines 308-315):
`groupby(["age_category", "activity_type"]).agg(mean calories)` over
the intensity-filtered rows, default `observed=False`: observed age
categories crossed with all 10 activity categories. -/
def age_activity_stats (t : List Row) (lvl : String) :
    List (String × String × Option ℚ) :=
  (observedAges (t.filter (fun r => r.intensity == lvl))).flatMap (fun ac =>
    activity_order.map (fun a =>
      (ac, a,
       rmean (((t.filter (fun r => r.intensity == lvl)).filter (fun r =>
         r.age_category == ac && r.activity_type == some a)).map
         Row.calories_burned))))

/-! ## Helper lemmas about the pipeline -/

theorem load_gender_cases (raw : List RawRow) (r : Row)
    (h : r ∈ load_data raw) :
    r.gender = none ∨ r.gender = some "Female" ∨ r.gender = some "Male" := by
  rcases List.mem_map.mp h with ⟨s, _, rfl⟩
  simp only [genderMap]
  by_cases h1 : s.gender = "F"
  · simp [h1]
  · by_cases h2 : s.gender = "M" <;> simp [h1, h2]

theorem flatMap_nil_fun (l : List α) :
    (l.flatMap (fun _ => ([] : List β))) = [] := by
  induction l with
  | nil => rfl
  | cons x xs ih => simp [ih]

theorem countDescLe_total (a b : String × ℕ) :
    countDescLe a b = true ∨ countDescLe b a = true := by
  simp only [countDescLe, decide_eq_true_eq]
  exact Nat.le_total b.2 a.2

theorem countDescLe_trans (a b c : String × ℕ)
    (h1 : countDescLe a b = true) (h2 : countDescLe b c = true) :
    countDescLe a c = true := by
  simp only [countDescLe, decide_eq_true_eq] at h1 h2 ⊢
  exact le_trans h2 h1

theorem actLe_total (a b : Row) : actLe a b = true ∨ actLe b a = true := by
  simp only [actLe, decide_eq_true_eq]
  exact Nat.le_total _ _

theorem actLe_trans (a b c : Row)
    (h1 : actLe a b = true) (h2 : actLe b c = true) : actLe a c = true := by
  simp only [actLe, decide_eq_true_eq] at h1 h2 ⊢
  exact le_trans h1 h2

theorem calDescLe_total (a b : String × Option ℚ × Option ℚ) :
    calDescLe a b = true ∨ calDescLe b a = true := by
  rcases a with ⟨a1, oa, a3⟩
  rcases b with ⟨b1, ob, b3⟩
  cases oa <;> cases ob <;> simp [calDescLe]
  exact le_total _ _

theorem calDescLe_trans (a b c : String × Option ℚ × Option ℚ)
    (h1 : calDescLe a b = true) (h2 : calDescLe b c = true) :
    calDescLe a c = true := by
  rcases a with ⟨a1, oa, a3⟩
  rcases b with ⟨b1, ob, b3⟩
  rcases c with ⟨c1, oc, c3⟩
  cases oa <;> cases ob <;> cases oc <;>
    simp [calDescLe] at h1 h2 ⊢
  exact le_trans h2 h1

theorem mem_sankey_fst (t : List Row) (lvl : String)
    (r : String × String × Option ℚ) (h : r ∈ sankey_data t lvl) :
    r.1 ∈ activity_order := by
  rcases List.mem_flatMap.mp h with ⟨a, ha, hr⟩
  rcases List.mem_map.mp hr with ⟨g, _, rfl⟩
  exact ha

theorem mem_sankey_snd (t : List Row) (lvl : String)
    (r : String × String × Option ℚ) (h : r ∈ sankey_data t lvl) :
    r.2.1 ∈ observedGenders (filteredSankey t lvl) := by
  rcases List.mem_flatMap.mp h with ⟨a, _, hr⟩
  rcases List.mem_map.mp hr with ⟨g, hg, rfl⟩
  exact hg

theorem observedGenders_mem (u : List Row) (g : String)
    (h : g ∈ observedGenders u) : ∃ r ∈ u, r.gender = some g := by
  have h1 := (mem_sortBy _ _ _).mp h
  have h2 := (mem_uniqueFirst _ _).mp h1
  exact List.mem_filterMap.mp h2

theorem gender_labels_sub (raw : List RawRow) (lvl : String) (x : String)
    (h : x ∈ gender_labels (load_data raw) lvl) :
    x = "Female" ∨ x = "Male" := by
  have h1 := (mem_uniqueFirst _ _).mp h
  rcases List.mem_map.mp h1 with ⟨r, hr, rfl⟩
  have h2 := mem_sankey_snd _ _ _ hr
  rcases observedGenders_mem _ _ h2 with ⟨s, hs, hgs⟩
  have hsl : s ∈ load_data raw := (List.mem_filter.mp hs).1
  rcases load_gender_cases raw s hsl with h0 | h0 | h0 <;>
    rw [h0] at hgs
  · cases hgs
  · exact Or.inl (Option.some_injective _ hgs.symm)
  · exact Or.inr (Option.some_injective _ hgs.symm)

theorem activity_labels_sub (t : List Row) (lvl : String) (x : String)
    (h : x ∈ activity_labels t lvl) : x ∈ activity_order := by
  have h1 := (mem_uniqueFirst _ _).mp h
  rcases List.mem_map.mp h1 with ⟨r, hr, rfl⟩
  exact mem_sankey_fst _ _ _ hr

theorem labels_disjoint (raw : List RawRow) (lvl : String) (x : String)
    (hA : x ∈ activity_labels (load_data raw) lvl) :
    x ∉ gender_labels (load_data raw) lvl := by
  intro hG
  have h1 := activity_labels_sub _ _ _ hA
  rcases gender_labels_sub raw lvl x hG with rfl | rfl <;>
    revert h1 <;> decide

/-! ## Claims -/

/-- A raw row whose gender field is neither `"F"` nor `"M"`. -/
def rawOther : RawRow :=
  { activity_type := "Running", gender := "Other", intensity := "Low",
    age_category := "Adult", duration_minutes := 10, calories_burned := 100 }

/-- C2, counterexample: loading a row with gender `"Other"` does NOT
pass the value through — `Series.map` with a dict sends every unmapped
value to NaN (`none`), so the loaded gender is missing, not
`"Other"`. -/
theorem C2_counterexample :
    (load_data [rawOther]).map Row.gender ≠ [some "Other"] ∧
    (load_data [rawOther]).map Row.gender = [none] := by
  constructor
  · decide
  · decide

/-- C2, amended: during load, gender `"F"` maps to `"Female"`, `"M"`
maps to `"Male"`, and every other value becomes a missing value
(pandas NaN, modelled as `none`) rather than passing through. -/
theorem C2_amended_mapping (raw : List RawRow) (i : ℕ) :
    ((load_data raw)[i]?).map Row.gender =
      (raw[i]?).map (fun r =>
        if r.gender = "F" then some "Female"
        else if r.gender = "M" then some "Male"
        else none) := by
  rw [load_data, List.getElem?_map]
  cases raw[i]? with
  | none => rfl
  | some r => rfl

/-- C7: step 1's output never contains a zero-frequency row — the
filter on line 92 removes exactly the zero counts that
`value_counts` materialises for unobserved categories. -/
theorem C7_no_zero_frequency (t : List Row) (p : String × ℕ)
    (h : p ∈ activity_frequency t) : 0 < p.2 := by
  have h2 := (List.mem_filter.mp h).2
  simpa using h2

/-- The spec's worked example: the three-row base table of §8. -/
def exampleTable : List Row :=
  [{ activity_type := some "Running", gender := some "Male",
     intensity := "High", age_category := "Adult",
     duration_minutes := 30, calories_burned := 300 },
   { activity_type := some "Running", gender := some "Female",
     intensity := "High", age_category := "Adult",
     duration_minutes := 25, calories_burned := 260 },
   { activity_type := some "Yoga", gender := some "Female",
     intensity := "Low", age_category := "Adult",
     duration_minutes := 40, calories_burned := 150 }]

/-- C7 witness: the frequency of `"Running"` in the example table is
positive. -/
theorem C7_witness : 0 < (("Running", 2) : String × ℕ).2 :=
  C7_no_zero_frequency exampleTable ("Running", 2) (by decide)

/-- C8: every gender value actually present (non-missing) in a loaded
table is `"Male"` or `"Female"`. -/
theorem C8_gender_subset (raw : List RawRow) (r : Row) (g : String)
    (hr : r ∈ load_data raw) (hg : r.gender = some g) :
    g = "Male" ∨ g = "Female" := by
  rcases load_gender_cases raw r hr with h | h | h <;> rw [h] at hg
  · cases hg
  · exact Or.inr (Option.some_injective _ hg).symm
  · exact Or.inl (Option.some_injective _ hg).symm

/-- C8 witness: loading a single `"F"` row gives the gender value
`"Female"`, which the theorem places in `{Male, Female}`. -/
theorem C8_witness : "Female" = "Male" ∨ "Female" = "Female" :=
  C8_gender_subset
    [{ activity_type := "Running", gender := "F", intensity := "Low",
       age_category := "Adult", duration_minutes := 10,
       calories_burned := 100 }]
    { activity_type := some "Running", gender := some "Female",
      intensity := "Low", age_category := "Adult",
      duration_minutes := 10, calories_burned := 100 }
    "Female" (by decide) rfl

/-- C9: on the spec's worked example, step 1 yields exactly
`[(Running, 2), (Yoga, 1)]` and step 3 yields exactly
`[(Running, 280, 27.5), (Yoga, 150, 40)]`, Running first. -/
theorem C9_worked_example :
    activity_frequency exampleTable = [("Running", 2), ("Yoga", 1)] ∧
    top_activities exampleTable =
      [("Running", 280, (27.5 : ℚ)), ("Yoga", 150, 40)] := by
  constructor
  · decide
  · have h1 : activity_stats exampleTable =
        [("Running", rmean [300, 260], rmean [30, 25]),
         ("Yoga", rmean [150], rmean [40])] := rfl
    have h2 : rmean [(300 : ℚ), 260] = some 280 := by norm_num [rmean]
    have h3 : rmean [(30 : ℚ), 25] = some 27.5 := by norm_num [rmean]
    have h4 : rmean [(150 : ℚ)] = some 150 := by norm_num [rmean]
    have h5 : rmean [(40 : ℚ)] = some 40 := by norm_num [rmean]
    rw [top_activities, h1, h2, h3, h4, h5]
    rfl

/-- A base table whose count order disagrees with the fixed category
order: two Yoga rows, one Running row. -/
def countOrderTable : List Row :=
  [{ activity_type := some "Yoga", gender := some "Female",
     intensity := "Low", age_category := "Adult",
     duration_minutes := 40, calories_burned := 150 },
   { activity_type := some "Yoga", gender := some "Male",
     intensity := "Low", age_category := "Adult",
     duration_minutes := 35, calories_burned := 140 },
   { activity_type := some "Running", gender := some "Male",
     intensity := "High", age_category := "Adult",
     duration_minutes := 30, calories_burned := 300 }]

/-- C10: step 1's rows appear in descending order of their frequency
values (the sort performed by `value_counts`); on `countOrderTable`
this puts Yoga (count 2) before Running (count 1), the opposite of the
fixed 10-item category order. -/
theorem C10_count_order (t : List Row) :
    List.Pairwise (fun p q : String × ℕ => q.2 ≤ p.2)
      (activity_frequency t) ∧
    activity_frequency countOrderTable = [("Yoga", 2), ("Running", 1)] := by
  constructor
  · have hs := pairwise_sortBy countDescLe countDescLe_total
      countDescLe_trans (activity_order.map (fun a => (a, countActivity t a)))
    have h2 : List.Pairwise (fun p q : String × ℕ => q.2 ≤ p.2)
        (value_counts t) := by
      refine hs.imp ?_
      intro a b hab
      simpa [countDescLe] using hab
    exact h2.filter _
  · decide

/-- C6: step 5 with an empty post-filter selection returns the
designated empty signal (`none`, the advisory branch of line 248),
never a non-empty table; a non-empty selection yields exactly the
selected rows (a permutation of the gender filter's output), sorted by
the categorical activity key, unaggregated. -/
theorem C6_scatter_empty_signal (t : List Row) (g : String) :
    (t.filter (fun r => r.gender == some g) = [] → scatterView t g = none) ∧
    (∀ l, scatterView t g = some l →
      l ≠ [] ∧ l.Perm (t.filter (fun r => r.gender == some g)) ∧
      List.Pairwise
        (fun r s => actKey r.activity_type ≤ actKey s.activity_type) l) := by
  constructor
  · intro h
    have hrows : scatterRows t g = [] := by
      rw [scatterRows, h]
      rfl
    rw [scatterView, hrows]
    rfl
  · intro l hl
    rw [scatterView] at hl
    by_cases he : (scatterRows t g).isEmpty
    · rw [if_pos he] at hl
      cases hl
    · rw [if_neg he] at hl
      have hleq : scatterRows t g = l := Option.some_injective _ hl
      subst hleq
      refine ⟨?_, ?_, ?_⟩
      · intro hnil
        rw [List.isEmpty_iff] at he
        exact he hnil
      · exact sortBy_perm _ _
      · have hs := pairwise_sortBy actLe actLe_total actLe_trans
          (t.filter (fun r => r.gender == some g))
        refine hs.imp ?_
        intro a b hab
        simpa [actLe] using hab

/-- A table whose only gender value is `Female`, so the `Male` scatter
selection is empty. -/
def femaleOnlyTable : List Row :=
  [{ activity_type := some "Running", gender := some "Female",
     intensity := "High", age_category := "Adult",
     duration_minutes := 30, calories_burned := 300 }]

/-- C6 witness: on `femaleOnlyTable` the `Male` selection is empty and
step 5 returns the empty signal. -/
theorem C6_witness : scatterView femaleOnlyTable "Male" = none :=
  (C6_scatter_empty_signal femaleOnlyTable "Male").1 (by decide)

/-- A raw table with a single `(Running, M)` row, used against C3. -/
def oneRunnerRaw : List RawRow :=
  [{ activity_type := "Running", gender := "M", intensity := "High",
     age_category := "Adult", duration_minutes := 30,
     calories_burned := 300 }]

/-- C3, counterexample: on the loaded one-row table, the combination
`(Cycling, Male)` matches no rows, yet step 2's output contains the
explicit zero-count row `(Cycling, Male, 0)` — the default
`observed=False` grouping over the categorical key materialises absent
combinations instead of omitting them. -/
theorem C3_counterexample :
    (load_data oneRunnerRaw).filter
      (fun r => r.activity_type == some "Cycling" &&
        r.gender == some "Male") = [] ∧
    ("Cycling", "Male", 0) ∈ freq_by_gender (load_data oneRunnerRaw) := by
  constructor
  · decide
  · decide

/-- C3, amended: step 2's output contains one row per (canonical
activity category, observed gender) pair, carrying that pair's row
count — including an explicit zero count when the combination matches
no rows. -/
theorem C3_zero_rows_materialised (t : List Row) (a g : String)
    (ha : a ∈ activity_order) (hg : g ∈ observedGenders t) :
    (a, g, countActGen t a g) ∈ freq_by_gender t :=
  List.mem_flatMap.mpr ⟨a, ha, List.mem_map.mpr ⟨g, hg, rfl⟩⟩

/-- C3 witness: the amended theorem at the unmatched combination
`(Cycling, Male)` of the loaded one-row table. -/
theorem C3_witness :
    ("Cycling", "Male",
      countActGen (load_data oneRunnerRaw) "Cycling" "Male") ∈
      freq_by_gender (load_data oneRunnerRaw) :=
  C3_zero_rows_materialised (load_data oneRunnerRaw) "Cycling" "Male"
    (by decide) (by decide)

/-- A raw table with two activity groups tied at mean 100 calories. -/
def tieRaw : List RawRow :=
  [{ activity_type := "Running", gender := "M", intensity := "High",
     age_category := "Adult", duration_minutes := 20,
     calories_burned := 100 },
   { activity_type := "Cycling", gender := "F", intensity := "High",
     age_category := "Adult", duration_minutes := 40,
     calories_burned := 100 }]

theorem top_tie_eq :
    top_activities (load_data tieRaw) =
      [("Running", 100, 20), ("Cycling", 100, 40)] := by
  have h1 : activity_stats (load_data tieRaw) =
      [("Running", rmean [100], rmean [20]),
       ("Cycling", rmean [100], rmean [40])] := rfl
  have h2 : rmean [(100 : ℚ)] = some 100 := by norm_num [rmean]
  have h3 : rmean [(20 : ℚ)] = some 20 := by norm_num [rmean]
  have h4 : rmean [(40 : ℚ)] = some 40 := by norm_num [rmean]
  rw [top_activities, h1, h2, h3, h4]
  rfl

/-- C4, counterexample: with the two groups tied at mean 100, step 3's
output is not sorted STRICTLY descending by `avg_calories_burned`. -/
theorem C4_counterexample :
    ¬ List.Pairwise (fun p q : String × ℚ × ℚ => q.2.1 < p.2.1)
      (top_activities (load_data tieRaw)) := by
  rw [top_tie_eq]
  intro h
  rcases List.pairwise_cons.mp h with ⟨hlt, _⟩
  have h100 := hlt ("Cycling", 100, 40) (List.mem_cons_self _ _)
  norm_num at h100

/-- C4, amended: step 3's output is sorted descending (non-strictly:
consecutive equal means may tie) by `avg_calories_burned`, and every
row comes from an `activity_stats` group whose two means are defined
(the `.dropna()` of line 164 removes exactly the undefined-mean
rows). -/
theorem C4_sorted_no_undefined (t : List Row) :
    List.Pairwise (fun p q : String × ℚ × ℚ => q.2.1 ≤ p.2.1)
      (top_activities t) ∧
    ∀ a c d, (a, c, d) ∈ top_activities t →
      (a, some c, some d) ∈ activity_stats t := by
  constructor
  · have hs := pairwise_sortBy calDescLe calDescLe_total calDescLe_trans
      (activity_stats t)
    rw [top_activities, List.pairwise_filterMap]
    refine hs.imp ?_
    intro x y hxy b hb b2 hb2
    rcases x with ⟨xa, xc, xd⟩
    rcases y with ⟨ya, yc, yd⟩
    cases xc with
    | none => simp at hb
    | some c =>
      cases xd with
      | none => simp at hb
      | some d =>
        cases yc with
        | none => simp at hb2
        | some c2 =>
          cases yd with
          | none => simp at hb2
          | some d2 =>
            simp only [Option.mem_def, Option.some.injEq] at hb hb2
            subst hb
            subst hb2
            simpa [calDescLe] using hxy
  · intro a c d h
    rw [top_activities] at h
    rcases List.mem_filterMap.mp h with ⟨x, hx, hfx⟩
    rcases x with ⟨xa, xc, xd⟩
    cases xc with
    | none => simp at hfx
    | some c2 =>
      cases xd with
      | none => simp at hfx
      | some d2 =>
        simp only [Option.some.injEq, Prod.mk.injEq] at hfx
        rcases hfx with ⟨rfl, rfl, rfl⟩
        exact (mem_sortBy _ _ _).mp hx

/-- C4 witness: the amended theorem's second part at the tied table:
the retained `Running` row has both its means defined in
`activity_stats`. -/
theorem C4_witness :
    ("Running", some (100 : ℚ), some (20 : ℚ)) ∈
      activity_stats (load_data tieRaw) :=
  (C4_sorted_no_undefined (load_data tieRaw)).2 "Running" 100 20
    (by rw [top_tie_eq]; exact List.mem_cons_self _ _)

/-- C5: grouping over a dimension with no matching rows yields an
empty summary table and never a failure (every step is a total
function): steps 6 and 7 on an intensity level matched by no rows
produce empty summaries, and every aggregation step applied to an
empty base table produces an empty output. -/
theorem C5_empty_groupings (raw : List RawRow) (lvl g : String) :
    ((load_data raw).filter (fun r => r.intensity == lvl) = [] →
      sankey_data (load_data raw) lvl = [] ∧
      age_activity_stats (load_data raw) lvl = []) ∧
    activity_frequency ([] : List Row) = [] ∧
    freq_by_gender ([] : List Row) = [] ∧
    top_activities ([] : List Row) = [] ∧
    activity_summary ([] : List Row) = [] ∧
    scatterRows ([] : List Row) g = [] := by
  refine ⟨?_, by decide, by decide, by decide, by decide, rfl⟩
  intro h
  have hf : filteredSankey (load_data raw) lvl = [] := h
  have hg0 : observedGenders ([] : List Row) = [] := rfl
  have ha0 : observedAges ([] : List Row) = [] := rfl
  constructor
  · rw [sankey_data]
    simp only [hf, hg0, List.map_nil]
    exact flatMap_nil_fun _
  · rw [age_activity_stats]
    simp only [h, ha0]
    rfl

/-- A raw table with no `Low`-intensity rows. -/
def noLowRaw : List RawRow :=
  [{ activity_type := "Running", gender := "F", intensity := "High",
     age_category := "Adult", duration_minutes := 30,
     calories_burned := 300 }]

/-- C5 witness: steps 6 and 7 at intensity `Low`, matched by no row of
the loaded `noLowRaw` table, give empty summaries. -/
theorem C5_witness :
    sankey_data (load_data noLowRaw) "Low" = [] ∧
    age_activity_stats (load_data noLowRaw) "Low" = [] :=
  (C5_empty_groupings noLowRaw "Low" "Male").1 (by decide)

/-- C1: in step 6, for the label set built from the grouped summary's
N distinct activity values and M distinct gender values, the activity
labels occupy indices [0, N) in first-occurrence order, the gender
labels occupy indices [N, N+M) in first-occurrence order, and every
link's source index lies in [0, N) and target index in [N, N+M). -/
theorem C1_sankey_label_indices (raw : List RawRow) (lvl : String) :
    (∀ i (hi : i < (activity_labels (load_data raw) lvl).length),
      label_indices (load_data raw) lvl
        ((activity_labels (load_data raw) lvl).get ⟨i, hi⟩) = some i) ∧
    (∀ j (hj : j < (gender_labels (load_data raw) lvl).length),
      label_indices (load_data raw) lvl
        ((gender_labels (load_data raw) lvl).get ⟨j, hj⟩) =
        some ((activity_labels (load_data raw) lvl).length + j)) ∧
    (∀ r, r ∈ sankey_data (load_data raw) lvl →
      (∃ i, source_index (load_data raw) lvl r = some i ∧
        i < (activity_labels (load_data raw) lvl).length) ∧
      (∃ j, target_index (load_data raw) lvl r =
        some ((activity_labels (load_data raw) lvl).length + j) ∧
        j < (gender_labels (load_data raw) lvl).length)) := by
  refine ⟨?_, ?_, ?_⟩
  · intro i hi
    have hmem : (activity_labels (load_data raw) lvl).get ⟨i, hi⟩ ∈
        activity_labels (load_data raw) lvl := List.get_mem _ _ _
    have hnotG := labels_disjoint raw lvl _ hmem
    rw [label_indices, all_labels, lastIdx_append_left _ _ _ hnotG]
    exact lastIdx_get_of_nodup _ (nodup_uniqueFirst _) i hi
  · intro j hj
    have hnodup : (gender_labels (load_data raw) lvl).Nodup :=
      nodup_uniqueFirst _
    have hlast := lastIdx_get_of_nodup
      (gender_labels (load_data raw) lvl) hnodup j hj
    rw [label_indices, all_labels]
    exact lastIdx_append_right _ _ _ j hlast
  · intro r hr
    constructor
    · have hA : r.1 ∈ activity_labels (load_data raw) lvl := by
        rw [activity_labels, mem_uniqueFirst]
        exact List.mem_map.mpr ⟨r, hr, rfl⟩
      have hnotG := labels_disjoint raw lvl _ hA
      rcases lastIdx_mem r.1 _ hA with ⟨i, hi, hlt⟩
      refine ⟨i, ?_, hlt⟩
      rw [source_index, label_indices, all_labels,
        lastIdx_append_left _ _ _ hnotG]
      exact hi
    · have hG : r.2.1 ∈ gender_labels (load_data raw) lvl := by
        rw [gender_labels, mem_uniqueFirst]
        exact List.mem_map.mpr ⟨r, hr, rfl⟩
      rcases lastIdx_mem r.2.1 _ hG with ⟨j, hj, hlt⟩
      refine ⟨j, ?_, hlt⟩
      rw [target_index, label_indices, all_labels]
      exact lastIdx_append_right _ _ _ j hj

/-- A raw table with one `(Running, F, High)` row, for the C1
witness. -/
def oneFRaw : List RawRow :=
  [{ activity_type := "Running", gender := "F", intensity := "High",
     age_category := "Adult", duration_minutes := 30,
     calories_burned := 300 }]

/-- C1 witness: on the loaded `oneFRaw` table at intensity `High`, the
first activity label maps to index 0, the first gender label maps to
index N + 0, and the summary row `(Running, Female, _)` gets a source
index below N and a target index in [N, N+M). -/
theorem C1_witness :
    label_indices (load_data oneFRaw) "High"
      ((activity_labels (load_data oneFRaw) "High").get ⟨0, by decide⟩) =
      some 0 ∧
    label_indices (load_data oneFRaw) "High"
      ((gender_labels (load_data oneFRaw) "High").get ⟨0, by decide⟩) =
      some ((activity_labels (load_data oneFRaw) "High").length + 0) ∧
    (∃ i, source_index (load_data oneFRaw) "High"
        ("Running", "Female", rmean [300]) = some i ∧
      i < (activity_labels (load_data oneFRaw) "High").length) ∧
    (∃ j, target_index (load_data oneFRaw) "High"
        ("Running", "Female", rmean [300]) =
        some ((activity_labels (load_data oneFRaw) "High").length + j) ∧
      j < (gender_labels (load_data oneFRaw) "High").length) :=
  ⟨(C1_sankey_label_indices oneFRaw "High").1 0 (by decide),
   (C1_sankey_label_indices oneFRaw "High").2.1 0 (by decide),
   ((C1_sankey_label_indices oneFRaw "High").2.2 _
     (List.mem_flatMap.mpr ⟨"Running", by decide,
       List.mem_map.mpr ⟨"Female", by decide, rfl⟩⟩)).1,
   ((C1_sankey_label_indices oneFRaw "High").2.2 _
     (List.mem_flatMap.mpr ⟨"Running", by decide,
       List.mem_map.mpr ⟨"Female", by decide, rfl⟩⟩)).2⟩
